import Mathlib

/-!
Verification development for the `test_ble_ios` repair scripts
(`auto_fix_xcode.py` and `fix_infoplist_duplicate.py`).

The scripts patch an Xcode project descriptor (`project.pbxproj`) with a
fixed list of `re.sub` rules, reconcile an `Info.plist` document against a
required-key dictionary via `plistlib`, remove `Info.plist` entries from the
Copy Bundle Resources phase, and keep `.backup` copies of the touched files.

The embedding models:
  * the exact regular expressions of the source as token lists over a small
    deterministic matcher (`matchToks`); every quantifier in the source's
    patterns applies to a character class whose members cannot begin the
    following token, so greedy matching without backtracking coincides with
    Python's backtracking semantics.  The single exception, the pattern
    `"[^"]*BeaconAttendance/BeaconAttendance[^"]*";` of Fix 4, is modelled by
    the dedicated token `qContain`, whose semantics (the quoted body is the
    run of non-quote characters and the match succeeds iff that body contains
    the middle literal and is followed by `";`) is exactly what Python's
    backtracking computes for that pattern, because `[^"]` cannot cross the
    closing quote.  Two patterns of the source contain `\s*=\s*[^;]+;`; since
    every `\s` character is also a `[^;]` character, `\s*[^;]+` accepts
    exactly the nonempty `;`-free strings, so the second `\s*` is absorbed
    into the `[^;]+` token (same match set, same greedy extent).
  * `re.sub` / `re.findall` as a left-to-right scan over the string that
    replaces (collects) non-overlapping leftmost matches and never rescans
    replacement text (`subGoSkip` / `findGoSkip`); all source patterns need
    at least one character, so the zero-width-match branch is dead.
  * Python `str.replace` (`replGoSkip`), used with nonempty patterns only.
All functions are structurally recursive so that concrete runs evaluate
inside the kernel.
-/

/-- Python `\s` on the ASCII range: space, tab, newline, carriage return,
vertical tab and form feed.  The files the script touches are ASCII. -/
def isPySpace (c : Char) : Bool :=
  c = ' ' || c = '\t' || c = '\n' || c = '\r' || c = '\x0b' || c = '\x0c'

/-- The class `[A-F0-9]` of the Copy-Bundle-Resources entry pattern. -/
def isHexUp (c : Char) : Bool :=
  ('A' ≤ c && c ≤ 'F') || ('0' ≤ c && c ≤ '9')

/-- The class `[A-Za-z_]` of the `INFOPLIST_KEY_` pattern. -/
def isKeyChar (c : Char) : Bool :=
  ('A' ≤ c && c ≤ 'Z') || ('a' ≤ c && c ≤ 'z') || c = '_'

/-- The class `[^;]`. -/
def notSemi (c : Char) : Bool := c != ';'

/-- The class `[^\]]`. -/
def notRBracket (c : Char) : Bool := c != ']'

/-- The class `[^"]`. -/
def notQuote (c : Char) : Bool := c != '"'

/-- One token of a source regular expression.  A pattern is a `List RTok`. -/
inductive RTok where
  /-- a single literal character -/
  | lit : Char → RTok
  /-- a literal string -/
  | strT : List Char → RTok
  /-- `cls*`: greedy, with no backtracking (sound here: in every source
  pattern the token after a `cls*` cannot start with a `cls` character) -/
  | starCls : (Char → Bool) → RTok
  /-- `cls+`: greedy, same proviso as `starCls` -/
  | plusCls : (Char → Bool) → RTok
  /-- `c?` for a literal character (the `,?` of the entry pattern) -/
  | optLit : Char → RTok
  /-- `cls\x7b n \x7d`: exactly `n` class characters -/
  | repCls : Nat → (Char → Bool) → RTok
  /-- the composite `"[^"]*MID[^"]*";` of Fix 4 (with `MID = []` it is the
  `"[^"]*";` of Fixes 2 and 5): an opening quote, a `"`-free body that must
  contain `MID`, the closing quote and a semicolon -/
  | qContain : List Char → RTok
  /-- the `$` anchor of the `re.match` patterns in `fix_infoplist_duplicate` -/
  | eos : RTok

/-- Length of the maximal prefix of `s` whose characters satisfy `p`. -/
def clsTake (p : Char → Bool) : List Char → Nat
  | [] => 0
  | c :: s => if p c then clsTake p s + 1 else 0

/-- Does `sub` occur as a contiguous sublist of `s`? -/
def containsSub (sub : List Char) : List Char → Bool
  | [] => sub.isEmpty
  | c :: s => sub.isPrefixOf (c :: s) || containsSub sub s

/-- Match a token list against a prefix of `s`; returns the number of
characters consumed.  Deterministic (see the module comment for why this
coincides with Python's leftmost-greedy backtracking on the source's
patterns). -/
def matchToks : List RTok → List Char → Option Nat
  | [], _ => some 0
  | RTok.lit ch :: ts, s =>
      match s with
      | [] => none
      | c :: s' => if c = ch then (matchToks ts s').map (· + 1) else none
  | RTok.strT l :: ts, s =>
      if l.isPrefixOf s then (matchToks ts (s.drop l.length)).map (· + l.length) else none
  | RTok.starCls p :: ts, s =>
      (matchToks ts (s.drop (clsTake p s))).map (· + clsTake p s)
  | RTok.plusCls p :: ts, s =>
      if clsTake p s = 0 then none
      else (matchToks ts (s.drop (clsTake p s))).map (· + clsTake p s)
  | RTok.optLit ch :: ts, s =>
      match s with
      | [] => matchToks ts []
      | c :: s' => if c = ch then (matchToks ts s').map (· + 1) else matchToks ts (c :: s')
  | RTok.repCls n p :: ts, s =>
      if n ≤ clsTake p s then (matchToks ts (s.drop n)).map (· + n) else none
  | RTok.qContain mid :: ts, s =>
      match s with
      | '"' :: rest =>
          if containsSub mid (rest.take (clsTake notQuote rest)) then
            match rest.drop (clsTake notQuote rest) with
            | '"' :: ';' :: rest2 =>
                (matchToks ts rest2).map (· + (clsTake notQuote rest + 3))
            | _ => none
          else none
      | _ => none
  | RTok.eos :: ts, s =>
      match s with
      | [] => matchToks ts []
      | _ :: _ => none

/-- `re.sub(pat, repl, ·)` scan loop.  The `Nat` argument is the number of
characters of an already-emitted match still to be skipped, which keeps the
recursion structural on the string.  A successful match consumes that match
and continues after it; on failure the character is copied.  (The
`some 0` case cannot arise for the source's patterns, which all require at
least one character; it is treated as no match.) -/
def subGoSkip (pat : List RTok) (repl : List Char) : Nat → List Char → List Char
  | _, [] => []
  | n + 1, _ :: s => subGoSkip pat repl n s
  | 0, c :: s =>
      match matchToks pat (c :: s) with
      | some (k + 1) => repl ++ subGoSkip pat repl k s
      | _ => c :: subGoSkip pat repl 0 s

/-- `re.sub(pat, repl, s)`. -/
def pySub (pat : List RTok) (repl : List Char) (s : List Char) : List Char :=
  subGoSkip pat repl 0 s

/-- `re.findall(pat, ·)` scan loop (the source's single group spans its whole
pattern, so each returned element is the whole match). -/
def findGoSkip (pat : List RTok) : Nat → List Char → List (List Char)
  | _, [] => []
  | n + 1, _ :: s => findGoSkip pat n s
  | 0, c :: s =>
      match matchToks pat (c :: s) with
      | some (k + 1) => ((c :: s).take (k + 1)) :: findGoSkip pat k s
      | _ => findGoSkip pat 0 s

/-- `re.findall(pat, s)`. -/
def pyFindall (pat : List RTok) (s : List Char) : List (List Char) :=
  findGoSkip pat 0 s

/-- Python `str.replace` scan loop (every use in the source has a nonempty
pattern; for `pt = []` this returns `s` unchanged). -/
def replGoSkip (pt repl : List Char) : Nat → List Char → List Char
  | _, [] => []
  | n + 1, _ :: s => replGoSkip pt repl n s
  | 0, c :: s =>
      if pt.isPrefixOf (c :: s) && !pt.isEmpty
      then repl ++ replGoSkip pt repl (pt.length - 1) s
      else c :: replGoSkip pt repl 0 s

/-- `s.replace(pt, repl)`. -/
def pyReplace (s pt repl : List Char) : List Char :=
  replGoSkip pt repl 0 s

/-- `true` iff `pat` matches at no position of `s` (including the empty
suffix). -/
def noMatch (pat : List RTok) : List Char → Bool
  | [] => (matchToks pat []).isNone
  | c :: s => (matchToks pat (c :: s)).isNone && noMatch pat s

/-- Shorthand for building a literal-string token. -/
def tokS (s : String) : RTok := RTok.strT s.data

/-- Shorthand for `\s*`. -/
def wsStar : RTok := RTok.starCls isPySpace

/-! ### The six `re.sub` rules of `fix_pbxproj` (source lines 40-87) -/

/-- Fix 1: `GENERATE_INFOPLIST_FILE\s*=\s*YES;`. -/
def genPat : List RTok :=
  [tokS "GENERATE_INFOPLIST_FILE", wsStar, RTok.lit '=', wsStar, tokS "YES;"]

/-- Replacement of Fix 1. -/
def genRepl : List Char := "GENERATE_INFOPLIST_FILE = NO;".data

/-- Fix 2: `INFOPLIST_FILE\s*=\s*"[^"]*";`. -/
def infoFilePat : List RTok :=
  [tokS "INFOPLIST_FILE", wsStar, RTok.lit '=', wsStar, RTok.qContain []]

/-- Replacement of Fix 2. -/
def infoFileRepl : List Char :=
  "INFOPLIST_FILE = \"BeaconAttendanceApp/Resources/Info.plist\";".data

/-- Fix 3: `INFOPLIST_KEY_[A-Za-z_]+\s*=\s*[^;]+;` (the `\s*` after `=` is
absorbed into the `[^;]+` token, see the module comment). -/
def infoKeyPat : List RTok :=
  [tokS "INFOPLIST_KEY_", RTok.plusCls isKeyChar, wsStar, RTok.lit '=',
   RTok.plusCls notSemi, RTok.lit ';']

/-- Fix 4: `CODE_SIGN_ENTITLEMENTS\s*=\s*"[^"]*BeaconAttendance/BeaconAttendance[^"]*";`. -/
def entitlementsPat : List RTok :=
  [tokS "CODE_SIGN_ENTITLEMENTS", wsStar, RTok.lit '=', wsStar,
   RTok.qContain "BeaconAttendance/BeaconAttendance".data]

/-- Replacement of Fix 4. -/
def entitlementsRepl : List Char :=
  "CODE_SIGN_ENTITLEMENTS = \"BeaconAttendance.entitlements\";".data

/-- Fix 5: `PRODUCT_BUNDLE_IDENTIFIER\s*=\s*"[^"]*";`. -/
def bundleIdPat : List RTok :=
  [tokS "PRODUCT_BUNDLE_IDENTIFIER", wsStar, RTok.lit '=', wsStar, RTok.qContain []]

/-- Replacement of Fix 5. -/
def bundleIdRepl : List Char :=
  "PRODUCT_BUNDLE_IDENTIFIER = \"com.oxii.BeaconAttendance\";".data

/-- Fix 6: `DEVELOPMENT_TEAM\s*=\s*[^;]+;` (second `\s*` absorbed as above). -/
def devTeamPat : List RTok :=
  [tokS "DEVELOPMENT_TEAM", wsStar, RTok.lit '=', RTok.plusCls notSemi, RTok.lit ';']

/-- Replacement of Fix 6. -/
def devTeamRepl : List Char := "DEVELOPMENT_TEAM = \"\";".data

/-- The Copy-Bundle-Resources entry pattern of
`remove_info_plist_from_copy_resources` (source line 152):
`[A-F0-9]\x7b24\x7d\s*/\*\s*Info\.plist\s*\*/\s*in\s*Resources\s*\*/,?\s*`. -/
def entryPat : List RTok :=
  [RTok.repCls 24 isHexUp, wsStar, tokS "/*", wsStar, tokS "Info.plist", wsStar,
   tokS "*/", wsStar, tokS "in", wsStar, tokS "Resources", wsStar, tokS "*/",
   RTok.optLit ',', wsStar]

/-- The whole rule pipeline of `fix_pbxproj` (Fixes 1-6 applied in source
order to the in-memory descriptor text). -/
def applyRules (c : List Char) : List Char :=
  pySub devTeamPat devTeamRepl
    (pySub bundleIdPat bundleIdRepl
      (pySub entitlementsPat entitlementsRepl
        (pySub infoKeyPat []
          (pySub infoFilePat infoFileRepl
            (pySub genPat genRepl c)))))

/-! ### Property-list model and `fix_info_plist` (source lines 98-141)

`plistlib` decodes a plist file into a Python dict preserving document
order; values in this program's domain are strings, booleans, integers and
arrays of strings (`UIBackgroundModes` is the only array, a string list).
`plistlib.dump(plist, f)` is called with its library defaults, i.e.
`fmt=FMT_XML` and `sort_keys=True`: the output is always XML with the keys
sorted, regardless of the input file's format or order. -/

/-- On-disk encoding of a plist file. -/
inductive PFmt where
  | xml : PFmt
  | binary : PFmt
deriving DecidableEq

/-- A plist value.  Arrays are restricted to string elements, which covers
every array this program reads or writes. -/
inductive PValue where
  | str : String → PValue
  | bool : Bool → PValue
  | int : Int → PValue
  | arr : List String → PValue
deriving DecidableEq

/-- An ordered key/value plist document (Python dict in insertion order). -/
abbrev Doc := List (String × PValue)

/-- A plist file on disk: its encoding and its document in file order. -/
structure PFile where
  fmt : PFmt
  items : Doc
deriving DecidableEq

/-- Python `==` on plist values: strings by value, lists element-wise and
order-sensitively, numbers by numeric value — in particular a `bool` equals
a numerically equal `int` (`True == 1`, `False == 0`), while no string ever
equals a boolean or number. -/
def pyEq : PValue → PValue → Bool
  | PValue.str a, PValue.str b => a == b
  | PValue.bool a, PValue.bool b => a == b
  | PValue.bool a, PValue.int n => (if a then (1 : Int) else 0) == n
  | PValue.int n, PValue.bool a => n == (if a then (1 : Int) else 0)
  | PValue.int m, PValue.int n => m == n
  | PValue.arr xs, PValue.arr ys => xs == ys
  | _, _ => false

/-- Deep structural equality as the specification words it: sequences
element-wise and order-sensitively, scalars by exact value AND exact type
(this is the spec's comparison, stated for comparison against the code's
`pyEq`). -/
def deepEq : PValue → PValue → Bool
  | PValue.str a, PValue.str b => a == b
  | PValue.bool a, PValue.bool b => a == b
  | PValue.int m, PValue.int n => m == n
  | PValue.arr xs, PValue.arr ys => xs == ys
  | _, _ => false

/-- First-match association-list lookup (Python `plist[key]` / `key in plist`). -/
def lookupD : Doc → String → Option PValue
  | [], _ => none
  | (k, v) :: d, key => if k = key then some v else lookupD d key

/-- Python dict assignment `plist[key] = value`: replace in place when the
key is present, append otherwise. -/
def setKey : Doc → String → PValue → Doc
  | [], k, v => [(k, v)]
  | (k', v') :: d, k, v => if k' = k then (k, v) :: d else (k', v') :: setKey d k v

/-- The update loop of `fix_info_plist` (source lines 122-127): for each
required key in order, upsert when the key is absent or its current value is
not Python-equal to the required one; the returned flag is the `modified`
variable. -/
def reconcileLoop : Doc → Doc → Doc × Bool
  | [], d => (d, false)
  | (k, v) :: rest, d =>
      match lookupD d k with
      | none => ((reconcileLoop rest (setKey d k v)).1, true)
      | some w =>
          if pyEq w v then reconcileLoop rest d
          else ((reconcileLoop rest (setKey d k v)).1, true)

/-- The `required_keys` dict of `fix_info_plist` (source lines 111-120), in
source order. -/
def requiredKeys : Doc :=
  [("NSLocationAlwaysAndWhenInUseUsageDescription",
     PValue.str "Beacon Attendance needs location access to detect when you enter or leave work sites."),
   ("NSLocationWhenInUseUsageDescription",
     PValue.str "Beacon Attendance needs location access to detect nearby beacons."),
   ("NSLocationAlwaysUsageDescription",
     PValue.str "Beacon Attendance needs background location access for automatic attendance tracking."),
   ("NSBluetoothAlwaysUsageDescription",
     PValue.str "Beacon Attendance uses Bluetooth to detect proximity beacons."),
   ("UIBackgroundModes",
     PValue.arr ["bluetooth-central", "location", "fetch", "processing"]),
   ("CFBundleIdentifier", PValue.str "com.oxii.BeaconAttendance"),
   ("CFBundleDisplayName", PValue.str "Beacon Attendance"),
   ("LSRequiresIPhoneOS", PValue.bool true)]

/-- Lexicographic code-point comparison of character lists (Python's `<` on
strings). -/
def charListLt : List Char → List Char → Bool
  | [], [] => false
  | [], _ :: _ => true
  | _ :: _, [] => false
  | c :: s, d :: t => if c < d then true else if d < c then false else charListLt s t

/-- Python's `<` on strings: lexicographic by code point. -/
def strLtB (s₁ s₂ : String) : Bool := charListLt s₁.data s₂.data

/-- Stable insertion of an entry into a key-sorted document (used to model
`sort_keys=True`). -/
def insertByKey (p : String × PValue) : Doc → Doc
  | [] => [p]
  | q :: l => if strLtB p.1 q.1 then p :: q :: l else q :: insertByKey p l

/-- Sort a document by key (Python `sorted(value.items())`, as performed by
`plistlib.dump`'s default `sort_keys=True`). -/
def sortByKey : Doc → Doc
  | [] => []
  | p :: l => insertByKey p (sortByKey l)

/-- `plistlib.dump(plist, f)` with library defaults: always XML, keys sorted. -/
def plistDump (d : Doc) : PFile := ⟨PFmt.xml, sortByKey d⟩

/-! ### Backup Guard and session state (`auto_fix_xcode.py`) -/

/-- The only I/O failure the model distinguishes. -/
inductive IOErr where
  | ioError : IOErr
deriving DecidableEq

/-- The `cp src dst` child process of `backup_file`: on a missing source it
fails (nonzero exit status) leaving the destination untouched; on success it
copies the bytes and exits 0.  The pair is (destination contents, exit
status). -/
def runCp (src dst : Option (List Char)) : Option (List Char) × Int :=
  match src with
  | some c => (some c, 0)
  | none => (dst, 1)

/-- `backup_file` (source lines 17-23): if no backup exists, run `cp` —
whose exit status is DISCARDED, since `subprocess.run` is called without
`check=True` and raises nothing when `cp` fails — then return.  The function
can therefore never surface an `IOError`. -/
def backupFile (src bak : Option (List Char)) : Except IOErr (Option (List Char)) :=
  match bak with
  | some b => Except.ok (some b)
  | none => Except.ok (runCp src none).1

/-- The pure backup-state transformer induced by `backupFile` (used by the
session model; `backupFile_ok` below proves the two agree). -/
def backupStep (src bak : Option (List Char)) : Option (List Char) :=
  match bak with
  | some b => some b
  | none => match src with
            | some c => some c
            | none => none

/-- `ensureBackup` exactly as the specification's §4.1 words it (for
comparison with the code's `backupFile`): fails with `IOError` when the
source path does not exist, otherwise guarantees a first-write-wins backup. -/
def ensureBackupSpec (src bak : Option (List Char)) : Except IOErr (Option (List Char)) :=
  match bak with
  | some b => Except.ok (some b)
  | none => match src with
            | some c => Except.ok (some c)
            | none => Except.error IOErr.ioError

/-- The file-system state a session touches.  `clean_build` only removes
DerivedData cache directories, which the spec scopes out; it is not tracked. -/
structure St where
  projectExists : Bool
  pbx : Option (List Char)
  pbxBackup : Option (List Char)
  plistFile : Option PFile
  plistBackup : Option PFile
deriving DecidableEq

/-- `fix_pbxproj` (source lines 25-96): existence check, unconditional
backup, the six rules, write-back only when the text changed (the return
value IS the text comparison `content != original_content`). -/
def fixPbxproj (st : St) : St × Bool :=
  match st.pbx with
  | none => (st, false)
  | some c =>
      let st1 := { st with pbxBackup := backupStep st.pbx st.pbxBackup }
      let c' := applyRules c
      if c' = c then (st1, false) else ({ st1 with pbx := some c' }, true)

/-- `fix_info_plist` (source lines 98-141): existence check, load, the
update loop, then — only when modified — backup and write through
`plistDump`.  The surrounding `try/except` catches any stage error and
returns `False`; an absent file is reported and returns `False`. -/
def fixInfoPlist (st : St) : St × Bool :=
  match st.plistFile with
  | none => (st, false)
  | some f =>
      let r := reconcileLoop requiredKeys f.items
      if r.2 then
        let st1 := { st with plistBackup := match st.plistBackup with
                                            | some b => some b
                                            | none => some f }
        ({ st1 with plistFile := some (plistDump r.1) }, true)
      else (st, false)

/-- Sequentially delete each found match text from the document
(`for match in matches: content = content.replace(match, '')`). -/
def removeMatches (c : List Char) (ms : List (List Char)) : List Char :=
  ms.foldl (fun acc m => pyReplace acc m []) c

/-- `remove_info_plist_from_copy_resources` (source lines 143-166): the
descriptor is opened UNGUARDED — no existence check and no handler — so a
missing file raises an uncaught error.  Otherwise `re.findall` collects the
entry matches and each match text is removed with `str.replace`; zero
matches is reported as the correct state and nothing is written. -/
def removeStage (st : St) : Except IOErr (St × Bool) :=
  match st.pbx with
  | none => Except.error IOErr.ioError
  | some c =>
      match pyFindall entryPat c with
      | [] => Except.ok (st, false)
      | ms => Except.ok ({ st with pbx := some (removeMatches c ms) }, true)

/-- Outcome of one `main()` invocation. -/
inductive RunOutcome where
  /-- project path missing: `sys.exit(1)` before any stage -/
  | fatal : RunOutcome
  /-- uncaught exception in the copy-resources stage; the flags are what the
  two completed stages returned -/
  | crashed : Bool → Bool → RunOutcome
  /-- normal completion with the three per-stage change flags -/
  | ok : Bool → Bool → Bool → RunOutcome
deriving DecidableEq

/-- `main` (source lines 192-233): fail fast when the project path is
absent, then run the three stages in order (the state a crashed run leaves
behind is the one current at the crash — files already written persist). -/
def mainRun (st : St) : St × RunOutcome :=
  if st.projectExists then
    let p1 := fixPbxproj st
    let p2 := fixInfoPlist p1.1
    match removeStage p2.1 with
    | Except.error _ => (p2.1, RunOutcome.crashed p1.2 p2.2)
    | Except.ok (st3, b3) => (st3, RunOutcome.ok p1.2 p2.2 b3)
  else (st, RunOutcome.fatal)

/-- The file-system state after `n` consecutive session runs. -/
def iterRuns : Nat → St → St
  | 0, st => st
  | n + 1, st => iterRuns n (mainRun st).1

/-! ### `fix_infoplist_duplicate.py`'s `fix_project_file` (lines 12-60) -/

/-- The four `re.match` line patterns of `fix_project_file` (lines 31-36). -/
def dupPats : List (List RTok) :=
  [[wsStar, RTok.lit '"', tokS "INFOPLIST_KEY_UIApplicationSceneManifest_Generation[sdk=",
    RTok.starCls notRBracket, tokS "]\"", wsStar, RTok.lit '=', wsStar, tokS "YES;",
    wsStar, RTok.eos],
   [wsStar, RTok.lit '"', tokS "INFOPLIST_KEY_UIApplicationSupportsIndirectInputEvents[sdk=",
    RTok.starCls notRBracket, tokS "]\"", wsStar, RTok.lit '=', wsStar, tokS "YES;",
    wsStar, RTok.eos],
   [wsStar, RTok.lit '"', tokS "INFOPLIST_KEY_UILaunchScreen_Generation[sdk=",
    RTok.starCls notRBracket, tokS "]\"", wsStar, RTok.lit '=', wsStar, tokS "YES;",
    wsStar, RTok.eos],
   [wsStar, RTok.lit '"', tokS "INFOPLIST_KEY_UIStatusBarStyle[sdk=",
    RTok.starCls notRBracket, tokS "]\"", wsStar, RTok.lit '=',
    RTok.plusCls notSemi, RTok.lit ';', wsStar, RTok.eos]]

/-- `content.split('\n')`. -/
def splitLinesGo (cur : List Char) : List Char → List (List Char)
  | [] => [cur.reverse]
  | c :: s => if c = '\n' then cur.reverse :: splitLinesGo [] s else splitLinesGo (c :: cur) s

/-- Split a text into its lines at `'\n'`. -/
def splitLines (s : List Char) : List (List Char) := splitLinesGo [] s

/-- `'\n'.join(lines)`. -/
def joinLines (ls : List (List Char)) : List Char :=
  match ls with
  | [] => []
  | l :: rest => l ++ (rest.foldl (fun acc x => acc ++ '\n' :: x) [])

/-- Does some pattern of `dupPats` `re.match` the line (i.e. match a prefix)? -/
def lineRemoved (line : List Char) : Bool :=
  dupPats.any (fun p => (matchToks p line).isSome)

/-- `fix_project_file` (source lines 12-60): existence check, then an
UNCONDITIONAL `shutil.copy2` to the `.backup2` path — overwriting any
previous backup — then drop every line matched by one of the four patterns
and write the result back.  Returns (descriptor, backup2, returned flag). -/
def fixProjectFile (pbx backup2 : Option (List Char)) :
    Option (List Char) × Option (List Char) × Bool :=
  match pbx with
  | none => (pbx, backup2, false)
  | some c =>
      let newC := joinLines ((splitLines c).filter (fun l => !lineRemoved l))
      (some newC, some c, true)


/-- The loop's update condition `key not in plist or plist[key] != value`
for one required entry. -/
def needsUpd (d : Doc) (p : String × PValue) : Bool :=
  match lookupD d p.1 with
  | none => true
  | some w => !pyEq w p.2

/-! ### Concrete inputs used by the counterexamples and witnesses -/

/-- An `Info.plist` document carrying every required key with the required
value, except that `LSRequiresIPhoneOS` holds the integer `1` instead of the
boolean `True` (a value plistlib produces for `<integer>1</integer>`). -/
def docIntOne : Doc :=
  requiredKeys.dropLast ++ [("LSRequiresIPhoneOS", PValue.int 1)]

/-- Descriptor text in which removing the inner `INFOPLIST_KEY_A = 1;`
assignment splices its surrounding fragments into a fresh
`INFOPLIST_KEY_B = 2;` assignment. -/
def spliceKeyText : List Char := "INFOPLIST_KINFOPLIST_KEY_A = 1;EY_B = 2;".data

/-- Session state holding `spliceKeyText` as the descriptor. -/
def stSpliceKey : St := ⟨true, some spliceKeyText, none, none, none⟩

/-- A descriptor that is already in the rules' target shape (it is exactly
the Fix 2 replacement text, which Fix 2 matches and rewrites to itself). -/
def goodDescriptor : List Char := infoFileRepl

/-- A metadata file already carrying exactly the required keys. -/
def plistAllRequired : PFile := ⟨PFmt.xml, requiredKeys⟩

/-- A fully correct session state: descriptor already fixed, metadata
already complete. -/
def stGood : St := ⟨true, some goodDescriptor, none, some plistAllRequired, none⟩

/-- Descriptor text for `fix_project_file` containing one of the four
removable `INFOPLIST_KEY_` lines. -/
def dupFixText : List Char :=
  "A = 1;\n\t\"INFOPLIST_KEY_UILaunchScreen_Generation[sdk=iphoneos*]\" = YES;\nB = 2;".data

/-- `dupFixText` after `fix_project_file` removed the matching line. -/
def dupFixRemoved : List Char := "A = 1;\nB = 2;".data

/-- A document holding only a key outside the required set. -/
def docOther : Doc := [("Other", PValue.int 7)]

/-- A well-formed Copy-Bundle-Resources entry (hex id `AAAA…`). -/
def entryTextA : List Char :=
  "AAAA1111AAAA1111AAAA1111 /* Info.plist */ in Resources */,\n".data

/-- A second entry with a distinct hex id. -/
def entryTextB : List Char :=
  "BBBB2222BBBB2222BBBB2222 /* Info.plist */ in Resources */,\n".data

/-- A third entry with a distinct hex id. -/
def entryTextC : List Char :=
  "CCCC3333CCCC3333CCCC3333 /* Info.plist */ in Resources */,\n".data

/-- A descriptor with exactly one matching entry. -/
def docOneEntry : List Char := "X = 1;\n".data ++ entryTextA ++ "Y = 2;\n".data

/-- A descriptor with exactly three matching entries. -/
def docThreeEntries : List Char :=
  "X = 1;\n".data ++ entryTextA ++ entryTextB ++ entryTextC ++ "Y = 2;\n".data

/-- A single Copy-Bundle-Resources entry with an all-hex 24-character id. -/
def entryText : List Char :=
  "ABCDEFABCDEFABCDEFABCDEF /* Info.plist */ in Resources */,".data

/-- A descriptor in which deleting the single found entry splices its two
surrounding fragments into a fresh matching entry. -/
def spliceEntryText : List Char := entryText.take 12 ++ entryText ++ entryText.drop 12

/-- Session state holding `spliceEntryText` as the descriptor. -/
def stSpliceEntry : St := ⟨true, some spliceEntryText, none, none, none⟩

/-- Minimal session state whose descriptor matches nothing. -/
def stNoEntry : St := ⟨true, some "N".data, none, none, none⟩

/-- Session state with the project path absent. -/
def stMissingProject : St := ⟨false, some "N".data, none, none, none⟩

/-- Session state with the project path present but the descriptor file
absent. -/
def stMissingDescriptor : St := ⟨true, none, none, none, none⟩

/-- A two-key metadata document whose file order is not alphabetical. -/
def binaryDoc : Doc := [("ZKey", PValue.str "z"), ("AKey", PValue.str "a")]

/-- That document stored in BINARY plist encoding. -/
def binaryPlistFile : PFile := ⟨PFmt.binary, binaryDoc⟩

/-- Session state whose metadata file is the binary, non-alphabetical one. -/
def stBinaryPlist : St := ⟨true, some "N".data, none, some binaryPlistFile, none⟩

/-- Context before the first `GENERATE_INFOPLIST_FILE` occurrence. -/
def twoYesPrefix : List Char := "X;\n".data

/-- The matched assignment text. -/
def yesLine : List Char := "GENERATE_INFOPLIST_FILE = YES;".data

/-- Context between the two occurrences. -/
def twoYesMid : List Char := "\nB;\n".data

/-- Context after the second occurrence. -/
def twoYesSuffix : List Char := "\n".data

/-- A descriptor containing `GENERATE_INFOPLIST_FILE = YES;` exactly twice
(the specification's two-build-configurations scenario). -/
def docTwoYes : List Char :=
  twoYesPrefix ++ (yesLine ++ (twoYesMid ++ (yesLine ++ twoYesSuffix)))

/-- Session state holding `docTwoYes` as the descriptor. -/
def stTwoYes : St := ⟨true, some docTwoYes, none, none, none⟩

/-! ### Generic lemmas about the scan loops -/

/-- The skip counter only drops characters: skipping `n` then scanning is
scanning the `n`-dropped string. -/
theorem subGoSkip_skip (pat : List RTok) (repl : List Char) :
    ∀ (s : List Char) (n : Nat), subGoSkip pat repl n s = subGoSkip pat repl 0 (s.drop n) := by
  intro s
  induction s with
  | nil => intro n; simp [subGoSkip]
  | cons c s ih =>
      intro n
      cases n with
      | zero => simp
      | succ m => simpa [subGoSkip] using ih m

/-- Same fact for the `findall` loop. -/
theorem findGoSkip_skip (pat : List RTok) :
    ∀ (s : List Char) (n : Nat), findGoSkip pat n s = findGoSkip pat 0 (s.drop n) := by
  intro s
  induction s with
  | nil => intro n; simp [findGoSkip]
  | cons c s ih =>
      intro n
      cases n with
      | zero => simp
      | succ m => simpa [findGoSkip] using ih m

/-- A string in which the pattern matches nowhere is returned unchanged by
`re.sub`. -/
theorem pySub_eq_of_noMatch (pat : List RTok) (repl : List Char) :
    ∀ (s : List Char), noMatch pat s = true → pySub pat repl s = s := by
  intro s
  induction s with
  | nil => intro _; rfl
  | cons c s ih =>
      intro h
      simp only [noMatch, Bool.and_eq_true, Option.isNone_iff_eq_none] at h
      simp only [pySub, subGoSkip, h.1]
      exact congrArg (c :: ·) (ih h.2)

/-- A string in which the pattern matches nowhere yields no `findall`
matches. -/
theorem pyFindall_eq_nil_of_noMatch (pat : List RTok) :
    ∀ (s : List Char), noMatch pat s = true → pyFindall pat s = [] := by
  intro s
  induction s with
  | nil => intro _; rfl
  | cons c s ih =>
      intro h
      simp only [noMatch, Bool.and_eq_true, Option.isNone_iff_eq_none] at h
      simp only [pyFindall, findGoSkip, h.1]
      exact ih h.2

/-- `re.sub` copies verbatim any prefix inside which no match starts. -/
theorem subGoSkip_append_of_noMatchPrefix (pat : List RTok) (repl : List Char) :
    ∀ (x rest : List Char),
      (∀ i, i < x.length → matchToks pat ((x ++ rest).drop i) = none) →
      subGoSkip pat repl 0 (x ++ rest) = x ++ subGoSkip pat repl 0 rest := by
  intro x
  induction x with
  | nil => intro rest _; rfl
  | cons c x ih =>
      intro rest h
      have h0 : matchToks pat (c :: (x ++ rest)) = none := h 0 (Nat.succ_pos _)
      simp only [List.cons_append, subGoSkip, List.append_eq, h0]
      exact congrArg (c :: ·) (ih rest (fun i hi => h (i + 1) (Nat.succ_lt_succ hi)))

/-- Same fact for the `findall` loop. -/
theorem findGoSkip_append_of_noMatchPrefix (pat : List RTok) :
    ∀ (x rest : List Char),
      (∀ i, i < x.length → matchToks pat ((x ++ rest).drop i) = none) →
      findGoSkip pat 0 (x ++ rest) = findGoSkip pat 0 rest := by
  intro x
  induction x with
  | nil => intro rest _; rfl
  | cons c x ih =>
      intro rest h
      have h0 : matchToks pat (c :: (x ++ rest)) = none := h 0 (Nat.succ_pos _)
      simp only [List.cons_append, findGoSkip, List.append_eq, h0]
      exact ih rest (fun i hi => h (i + 1) (Nat.succ_lt_succ hi))

/-- When the pattern matches `k+1` characters at the head, `re.sub` emits the
replacement and resumes after the match. -/
theorem subGoSkip_cons_match (pat : List RTok) (repl : List Char) (c : Char)
    (s : List Char) (k : Nat) (h : matchToks pat (c :: s) = some (k + 1)) :
    subGoSkip pat repl 0 (c :: s) = repl ++ subGoSkip pat repl 0 (s.drop k) := by
  simp only [subGoSkip, h]
  exact congrArg (repl ++ ·) (subGoSkip_skip pat repl s k)

/-- When the pattern matches `k+1` characters at the head, `findall` records
the matched text and resumes after the match. -/
theorem findGoSkip_cons_match (pat : List RTok) (c : Char)
    (s : List Char) (k : Nat) (h : matchToks pat (c :: s) = some (k + 1)) :
    findGoSkip pat 0 (c :: s) = ((c :: s).take (k + 1)) :: findGoSkip pat 0 (s.drop k) := by
  simp only [findGoSkip, h]
  exact congrArg (((c :: s).take (k + 1)) :: ·) (findGoSkip_skip pat s k)

/-! ### Lemmas about the metadata reconciler -/


/-- Python `==` is reflexive on plist values. -/
theorem pyEq_refl (v : PValue) : pyEq v v = true := by
  cases v <;> simp [pyEq]

/-- Assigning a key makes lookup return the assigned value. -/
theorem lookupD_setKey_self (d : Doc) (k : String) (v : PValue) :
    lookupD (setKey d k v) k = some v := by
  induction d with
  | nil => simp [setKey, lookupD]
  | cons p d ih =>
      by_cases hp : p.1 = k
      · simp [setKey, hp, lookupD]
      · simp [setKey, hp, lookupD, ih]

/-- Assigning a key leaves every other key's lookup unchanged. -/
theorem lookupD_setKey_ne (d : Doc) (k key : String) (v : PValue) (h : key ≠ k) :
    lookupD (setKey d k v) key = lookupD d key := by
  have hk : ¬ k = key := fun hh => h hh.symm
  induction d with
  | nil => simp [setKey, lookupD, hk]
  | cons p d ih =>
      obtain ⟨p1, p2⟩ := p
      by_cases hp : p1 = k
      · subst hp
        simp [setKey, lookupD, hk]
      · simp [setKey, hp, lookupD, ih]

/-- The reconciliation loop never touches a key outside the required set. -/
theorem reconcileLoop_lookup_not_mem :
    ∀ (R : Doc) (d : Doc) (key : String), key ∉ R.map Prod.fst →
      lookupD (reconcileLoop R d).1 key = lookupD d key := by
  intro R
  induction R with
  | nil => intro d key _; rfl
  | cons p R ih =>
      intro d key hk
      obtain ⟨k, v⟩ := p
      simp only [List.map_cons, List.mem_cons, not_or] at hk
      have hne : key ≠ k := hk.1
      cases hl : lookupD d k with
      | none =>
          simp only [reconcileLoop, hl]
          rw [ih (setKey d k v) key hk.2, lookupD_setKey_ne d k key v hne]
      | some w =>
          cases he : pyEq w v with
          | true =>
              simp only [reconcileLoop, hl, he, if_true]
              exact ih d key hk.2
          | false =>
              simp only [reconcileLoop, hl, he, Bool.false_eq_true, if_false]
              rw [ih (setKey d k v) key hk.2, lookupD_setKey_ne d k key v hne]

/-- After reconciliation, every required key's value is Python-equal to the
required value (distinct required keys). -/
theorem reconcileLoop_lookup_mem :
    ∀ (R : Doc) (d : Doc), (R.map Prod.fst).Nodup →
      ∀ k v, (k, v) ∈ R →
        ∃ w, lookupD (reconcileLoop R d).1 k = some w ∧ pyEq w v = true := by
  intro R
  induction R with
  | nil => intro d _ k v hm; cases hm
  | cons p R ih =>
      intro d hnd k v hm
      obtain ⟨k₁, v₁⟩ := p
      simp only [List.map_cons, List.nodup_cons] at hnd
      rcases List.mem_cons.mp hm with hh | ht
      · injection hh with hk hv
        subst hk; subst hv
        cases hl : lookupD d k with
        | none =>
            simp only [reconcileLoop, hl]
            rw [reconcileLoop_lookup_not_mem R (setKey d k v) k hnd.1,
                lookupD_setKey_self d k v]
            exact ⟨v, rfl, pyEq_refl v⟩
        | some w =>
            cases he : pyEq w v with
            | true =>
                simp only [reconcileLoop, hl, he, if_true]
                rw [reconcileLoop_lookup_not_mem R d k hnd.1, hl]
                exact ⟨w, rfl, he⟩
            | false =>
                simp only [reconcileLoop, hl, he, Bool.false_eq_true, if_false]
                rw [reconcileLoop_lookup_not_mem R (setKey d k v) k hnd.1,
                    lookupD_setKey_self d k v]
                exact ⟨v, rfl, pyEq_refl v⟩
      · cases hl : lookupD d k₁ with
        | none =>
            simp only [reconcileLoop, hl]
            exact ih (setKey d k₁ v₁) hnd.2 k v ht
        | some w =>
            cases he : pyEq w v₁ with
            | true =>
                simp only [reconcileLoop, hl, he, if_true]
                exact ih d hnd.2 k v ht
            | false =>
                simp only [reconcileLoop, hl, he, Bool.false_eq_true, if_false]
                exact ih (setKey d k₁ v₁) hnd.2 k v ht

/-- The `modified` flag is true iff some required key is absent from the
original document or carries a value that is not Python-equal to the
required one. -/
theorem reconcileLoop_flag_iff :
    ∀ (R : Doc) (d : Doc),
      (reconcileLoop R d).2 = true ↔ ∃ p ∈ R, needsUpd d p = true := by
  intro R
  induction R with
  | nil => intro d; simp [reconcileLoop]
  | cons p R ih =>
      intro d
      obtain ⟨k, v⟩ := p
      cases hl : lookupD d k with
      | none =>
          simp only [reconcileLoop, hl]
          constructor
          · intro _; exact ⟨(k, v), List.mem_cons_self .., by simp [needsUpd, hl]⟩
          · intro _; trivial
      | some w =>
          cases he : pyEq w v with
          | true =>
              simp only [reconcileLoop, hl, he, if_true]
              rw [ih d]
              constructor
              · rintro ⟨q, hq, hu⟩; exact ⟨q, List.mem_cons_of_mem _ hq, hu⟩
              · rintro ⟨q, hq, hu⟩
                rcases List.mem_cons.mp hq with hh | ht
                · subst hh; simp [needsUpd, hl, he] at hu
                · exact ⟨q, ht, hu⟩
          | false =>
              simp only [reconcileLoop, hl, he, Bool.false_eq_true, if_false]
              constructor
              · intro _
                exact ⟨(k, v), List.mem_cons_self .., by simp [needsUpd, hl, he]⟩
              · intro _; trivial

/-- A document on which no required key needs an update is returned
unchanged with the `modified` flag false. -/
theorem reconcileLoop_of_no_needs :
    ∀ (R : Doc) (d : Doc), (∀ p ∈ R, needsUpd d p = false) →
      reconcileLoop R d = (d, false) := by
  intro R
  induction R with
  | nil => intro d _; rfl
  | cons p R ih =>
      intro d h
      obtain ⟨k, v⟩ := p
      have hp := h (k, v) (List.mem_cons_self ..)
      cases hl : lookupD d k with
      | none => simp [needsUpd, hl] at hp
      | some w =>
          simp only [needsUpd, hl, Bool.not_eq_false'] at hp
          simp only [reconcileLoop, hl, hp, if_true]
          exact ih d (fun q hq => h q (List.mem_cons_of_mem _ hq))

/-- Reconciliation is idempotent (distinct required keys): a second pass
changes nothing and reports `modified = False`. -/
theorem reconcileLoop_idem (R : Doc) (d : Doc) (hnd : (R.map Prod.fst).Nodup) :
    reconcileLoop R (reconcileLoop R d).1 = ((reconcileLoop R d).1, false) := by
  apply reconcileLoop_of_no_needs
  intro p hp
  obtain ⟨w, hw, he⟩ := reconcileLoop_lookup_mem R d hnd p.1 p.2 hp
  simp [needsUpd, hw, he]

/-! ### Lemmas about `sort_keys=True` and key uniqueness -/

/-- Inserting into the sorted list is a permutation of consing. -/
theorem insertByKey_perm (p : String × PValue) :
    ∀ (l : Doc), (insertByKey p l).Perm (p :: l) := by
  intro l
  induction l with
  | nil => simp [insertByKey]
  | cons q l ih =>
      cases hlt : strLtB p.1 q.1 with
      | true => simp [insertByKey, hlt]
      | false =>
          simp only [insertByKey, hlt, Bool.false_eq_true, if_false]
          exact (ih.cons q).trans (List.Perm.swap p q l)

/-- Sorting by key permutes the document. -/
theorem sortByKey_perm : ∀ (d : Doc), (sortByKey d).Perm d := by
  intro d
  induction d with
  | nil => simp [sortByKey]
  | cons p d ih => exact (insertByKey_perm p (sortByKey d)).trans (ih.cons p)

/-- `lookupD` returns `none` exactly on absent keys. -/
theorem lookupD_eq_none_iff (d : Doc) (k : String) :
    lookupD d k = none ↔ k ∉ d.map Prod.fst := by
  induction d with
  | nil => simp [lookupD]
  | cons p d ih =>
      obtain ⟨p1, p2⟩ := p
      by_cases hp : p1 = k
      · subst hp; simp [lookupD]
      · have hk : ¬ k = p1 := fun hh => hp hh.symm
        simp [lookupD, hp, ih, hk]

/-- Under distinct keys, `lookupD` agrees with membership. -/
theorem lookupD_eq_some_iff_mem :
    ∀ (d : Doc), (d.map Prod.fst).Nodup →
      ∀ (k : String) (v : PValue), lookupD d k = some v ↔ (k, v) ∈ d := by
  intro d
  induction d with
  | nil => intro _ k v; simp [lookupD]
  | cons p d ih =>
      intro hnd k v
      obtain ⟨p1, p2⟩ := p
      simp only [List.map_cons, List.nodup_cons] at hnd
      by_cases hp : p1 = k
      · subst hp
        rw [show lookupD ((p1, p2) :: d) p1 = some p2 from by simp [lookupD]]
        simp only [Option.some.injEq, List.mem_cons, Prod.mk.injEq, true_and]
        constructor
        · intro hv; exact Or.inl hv.symm
        · rintro (hh | ht)
          · exact hh.symm
          · exact absurd (List.mem_map_of_mem Prod.fst ht) hnd.1
      · have hk : ¬ (k = p1 ∧ v = p2) := fun hh => hp hh.1.symm
        simp only [lookupD, if_neg hp, List.mem_cons, Prod.mk.injEq, ih hnd.2]
        exact ⟨Or.inr, fun h => h.resolve_left hk⟩

/-- Under distinct keys, lookup is invariant under permutation of the
document. -/
theorem lookupD_eq_of_perm (d₁ d₂ : Doc) (hp : d₁.Perm d₂)
    (hnd : (d₁.map Prod.fst).Nodup) (k : String) :
    lookupD d₁ k = lookupD d₂ k := by
  have hnd₂ : (d₂.map Prod.fst).Nodup := ((hp.map Prod.fst).nodup_iff).mp hnd
  cases hl : lookupD d₁ k with
  | none =>
      have hk := (lookupD_eq_none_iff d₁ k).mp hl
      have hk₂ : k ∉ d₂.map Prod.fst := fun hm => hk ((hp.map Prod.fst).mem_iff.mpr hm)
      exact ((lookupD_eq_none_iff d₂ k).mpr hk₂).symm
  | some v =>
      have hm := (lookupD_eq_some_iff_mem d₁ hnd k v).mp hl
      exact ((lookupD_eq_some_iff_mem d₂ hnd₂ k v).mpr (hp.mem_iff.mp hm)).symm

/-- Sorting does not change lookups when keys are distinct. -/
theorem lookupD_sortByKey (d : Doc) (hnd : (d.map Prod.fst).Nodup) (k : String) :
    lookupD (sortByKey d) k = lookupD d k := by
  have hnds : ((sortByKey d).map Prod.fst).Nodup :=
    (((sortByKey_perm d).map Prod.fst).nodup_iff).mpr hnd
  exact lookupD_eq_of_perm (sortByKey d) d (sortByKey_perm d) hnds k

/-- The keys after an assignment are the old keys, plus the assigned key if
it was absent. -/
theorem setKey_keys_mem (d : Doc) (k : String) (v : PValue) (x : String) :
    x ∈ (setKey d k v).map Prod.fst ↔ x ∈ d.map Prod.fst ∨ x = k := by
  induction d with
  | nil => simp [setKey]
  | cons p d ih =>
      obtain ⟨p1, p2⟩ := p
      by_cases hp : p1 = k
      · subst hp
        simp only [setKey, if_pos rfl, if_true, List.map_cons, List.mem_cons]
        tauto
      · simp only [setKey, if_neg hp, List.map_cons, List.mem_cons, ih]
        tauto

/-- Assignment preserves key distinctness. -/
theorem setKey_keys_nodup (d : Doc) (k : String) (v : PValue)
    (hnd : (d.map Prod.fst).Nodup) : ((setKey d k v).map Prod.fst).Nodup := by
  induction d with
  | nil => simp [setKey]
  | cons p d ih =>
      obtain ⟨p1, p2⟩ := p
      simp only [List.map_cons, List.nodup_cons] at hnd
      by_cases hp : p1 = k
      · subst hp
        simp only [setKey, if_pos rfl, if_true, List.map_cons, List.nodup_cons]
        exact hnd
      · simp only [setKey, if_neg hp, List.map_cons, List.nodup_cons]
        refine ⟨fun hm => ?_, ih hnd.2⟩
        rcases (setKey_keys_mem d k v p1).mp hm with hm | hm
        · exact hnd.1 hm
        · exact hp hm

/-- Reconciliation preserves key distinctness. -/
theorem reconcileLoop_keys_nodup :
    ∀ (R : Doc) (d : Doc), (d.map Prod.fst).Nodup →
      ((reconcileLoop R d).1.map Prod.fst).Nodup := by
  intro R
  induction R with
  | nil => intro d h; exact h
  | cons p R ih =>
      intro d h
      obtain ⟨k, v⟩ := p
      cases hl : lookupD d k with
      | none =>
          simp only [reconcileLoop, hl]
          exact ih (setKey d k v) (setKey_keys_nodup d k v h)
      | some w =>
          cases he : pyEq w v with
          | true =>
              simp only [reconcileLoop, hl, he, if_true]
              exact ih d h
          | false =>
              simp only [reconcileLoop, hl, he, Bool.false_eq_true, if_false]
              exact ih (setKey d k v) (setKey_keys_nodup d k v h)

/-! ### Characterizations of the session stages -/

/-- A missing descriptor makes `fix_pbxproj` report no change and leave the
state alone (it returns before the backup). -/
theorem fixPbxproj_none (st : St) (h : st.pbx = none) : fixPbxproj st = (st, false) := by
  simp [fixPbxproj, h]

/-- When the rules do not change the text, `fix_pbxproj` still takes the
backup but writes nothing and returns `False`. -/
theorem fixPbxproj_nochange (st : St) (c : List Char) (h : st.pbx = some c)
    (hc : applyRules c = c) :
    fixPbxproj st = ({ st with pbxBackup := backupStep (some c) st.pbxBackup }, false) := by
  simp [fixPbxproj, h, hc]

/-- When the rules change the text, `fix_pbxproj` backs up, writes the new
text and returns `True`. -/
theorem fixPbxproj_change (st : St) (c : List Char) (h : st.pbx = some c)
    (hc : applyRules c ≠ c) :
    fixPbxproj st = ({ st with
                        pbx := some (applyRules c),
                        pbxBackup := backupStep (some c) st.pbxBackup }, true) := by
  simp [fixPbxproj, h, hc]

/-- `fix_pbxproj` never touches the project-existence flag or the metadata
file and its backup. -/
theorem fixPbxproj_frame (st : St) :
    (fixPbxproj st).1.projectExists = st.projectExists
  ∧ (fixPbxproj st).1.plistFile = st.plistFile
  ∧ (fixPbxproj st).1.plistBackup = st.plistBackup := by
  cases h : st.pbx with
  | none => simp [fixPbxproj, h]
  | some c =>
      by_cases hc : applyRules c = c
      · rw [fixPbxproj_nochange st c h hc]
        exact ⟨rfl, rfl, rfl⟩
      · rw [fixPbxproj_change st c h hc]
        exact ⟨rfl, rfl, rfl⟩

/-- A missing metadata file makes `fix_info_plist` report no change. -/
theorem fixInfoPlist_none (st : St) (h : st.plistFile = none) :
    fixInfoPlist st = (st, false) := by
  simp [fixInfoPlist, h]

/-- When no required key needs an update, `fix_info_plist` takes no backup,
writes nothing and returns `False`. -/
theorem fixInfoPlist_nomod (st : St) (f : PFile) (h : st.plistFile = some f)
    (hm : (reconcileLoop requiredKeys f.items).2 = false) :
    fixInfoPlist st = (st, false) := by
  simp [fixInfoPlist, h, hm]

/-- When some required key needs an update, `fix_info_plist` backs the file
up (first-write-wins) and writes the reconciled document through
`plistDump`. -/
theorem fixInfoPlist_mod (st : St) (f : PFile) (h : st.plistFile = some f)
    (hm : (reconcileLoop requiredKeys f.items).2 = true) :
    fixInfoPlist st
      = ({ st with
            plistFile := some (plistDump (reconcileLoop requiredKeys f.items).1),
            plistBackup := (match st.plistBackup with
                            | some b => some b
                            | none => some f) }, true) := by
  simp [fixInfoPlist, h, hm]

/-- `fix_info_plist` never touches the project-existence flag, the
descriptor or its backup. -/
theorem fixInfoPlist_frame (st : St) :
    (fixInfoPlist st).1.projectExists = st.projectExists
  ∧ (fixInfoPlist st).1.pbx = st.pbx
  ∧ (fixInfoPlist st).1.pbxBackup = st.pbxBackup := by
  cases h : st.plistFile with
  | none => simp [fixInfoPlist, h]
  | some f =>
      cases hm : (reconcileLoop requiredKeys f.items).2 with
      | false => rw [fixInfoPlist_nomod st f h hm]; exact ⟨rfl, rfl, rfl⟩
      | true => rw [fixInfoPlist_mod st f h hm]; exact ⟨rfl, rfl, rfl⟩

/-- A missing descriptor file makes the unguarded `open` of the
copy-resources stage raise. -/
theorem removeStage_none (st : St) (h : st.pbx = none) :
    removeStage st = Except.error IOErr.ioError := by
  simp [removeStage, h]

/-- With zero matching entries the stage reports the already-correct state:
nothing is written and the flag is `False`. -/
theorem removeStage_nil (st : St) (c : List Char) (h : st.pbx = some c)
    (hf : pyFindall entryPat c = []) :
    removeStage st = Except.ok (st, false) := by
  simp [removeStage, h, hf]

/-- With a present descriptor the stage cannot raise. -/
theorem removeStage_isOk (st : St) (c : List Char) (h : st.pbx = some c) :
    ∃ p, removeStage st = Except.ok p := by
  cases hf : pyFindall entryPat c with
  | nil => exact ⟨(st, false), removeStage_nil st c h hf⟩
  | cons m ms =>
      refine ⟨({ st with pbx := some (removeMatches c (m :: ms)) }, true), ?_⟩
      simp [removeStage, h, hf]

/-- The copy-resources stage never touches anything but the descriptor. -/
theorem removeStage_frame (st st' : St) (b : Bool)
    (h : removeStage st = Except.ok (st', b)) :
    st'.projectExists = st.projectExists ∧ st'.pbxBackup = st.pbxBackup
  ∧ st'.plistFile = st.plistFile ∧ st'.plistBackup = st.plistBackup := by
  cases hc : st.pbx with
  | none => rw [removeStage_none st hc] at h; cases h
  | some c =>
      cases hf : pyFindall entryPat c with
      | nil =>
          rw [removeStage_nil st c hc hf] at h
          injection h with h
          injection h with h1 _
          rw [← h1]
          exact ⟨rfl, rfl, rfl, rfl⟩
      | cons m ms =>
          simp only [removeStage, hc, hf] at h
          injection h with h
          injection h with h1 _
          rw [← h1]
          exact ⟨rfl, rfl, rfl, rfl⟩

/-- A missing project path is fatal before any stage runs. -/
theorem mainRun_fatal (st : St) (h : st.projectExists = false) :
    mainRun st = (st, RunOutcome.fatal) := by
  simp [mainRun, h]

/-- With the project present, a session run preserves the existence flag,
its descriptor backup is the one `fix_pbxproj` left, and its metadata file
and backup are the ones `fix_info_plist` left. -/
theorem mainRun_frame (st : St) (hpe : st.projectExists = true) :
    (mainRun st).1.projectExists = st.projectExists
  ∧ (mainRun st).1.pbxBackup = (fixPbxproj st).1.pbxBackup
  ∧ (mainRun st).1.plistFile = (fixInfoPlist (fixPbxproj st).1).1.plistFile
  ∧ (mainRun st).1.plistBackup = (fixInfoPlist (fixPbxproj st).1).1.plistBackup := by
  have hA := fixPbxproj_frame st
  have hB := fixInfoPlist_frame (fixPbxproj st).1
  cases hr : removeStage (fixInfoPlist (fixPbxproj st).1).1 with
  | error e =>
      have hmr : (mainRun st).1 = (fixInfoPlist (fixPbxproj st).1).1 := by
        simp only [mainRun, hpe, if_true, hr]
      rw [hmr]
      exact ⟨hB.1.trans hA.1, hB.2.2, rfl, rfl⟩
  | ok p =>
      obtain ⟨st3, b3⟩ := p
      have hC := removeStage_frame _ st3 b3 hr
      have hmr : (mainRun st).1 = st3 := by
        simp only [mainRun, hpe, if_true, hr]
      rw [hmr]
      exact ⟨hC.1.trans (hB.1.trans hA.1), hC.2.1.trans hB.2.2, hC.2.2.1, hC.2.2.2⟩

/-- An existing descriptor backup survives any later session run untouched
(first-write-wins). -/
theorem mainRun_pbxBackup_some (st : St) (b : List Char) (h : st.pbxBackup = some b) :
    (mainRun st).1.pbxBackup = some b := by
  cases hpe : st.projectExists with
  | false => rw [mainRun_fatal st hpe]; exact h
  | true =>
      rw [(mainRun_frame st hpe).2.1]
      cases hc : st.pbx with
      | none => rw [fixPbxproj_none st hc]; exact h
      | some c =>
          by_cases ha : applyRules c = c
          · rw [fixPbxproj_nochange st c hc ha]
            simp [backupStep, h]
          · rw [fixPbxproj_change st c hc ha]
            simp [backupStep, h]

/-- The first run on a backup-less state with an existing descriptor
creates the backup, holding the pre-run descriptor bytes. -/
theorem mainRun_backup_created (st : St) (c : List Char) (hpe : st.projectExists = true)
    (hpx : st.pbx = some c) (hb : st.pbxBackup = none) :
    (mainRun st).1.pbxBackup = some c := by
  rw [(mainRun_frame st hpe).2.1]
  by_cases ha : applyRules c = c
  · rw [fixPbxproj_nochange st c hpx ha]
    simp [backupStep, hb]
  · rw [fixPbxproj_change st c hpx ha]
    simp [backupStep, hb]

/-- An existing descriptor backup survives any number of later runs. -/
theorem iterRuns_pbxBackup_some (b : List Char) :
    ∀ (n : Nat) (st : St), st.pbxBackup = some b → (iterRuns n st).pbxBackup = some b := by
  intro n
  induction n with
  | zero => intro st h; exact h
  | succ m ih => intro st h; exact ih (mainRun st).1 (mainRun_pbxBackup_some st b h)

/-- A state whose post-run descriptor exists also has a post-run backup. -/
theorem mainRun_pbxBackup_isSome (st : St) (c : List Char) (hpe : st.projectExists = true)
    (hpx : (mainRun st).1.pbx = some c) :
    ∃ b, (mainRun st).1.pbxBackup = some b := by
  cases hc : st.pbx with
  | none =>
      exfalso
      have h1 : fixPbxproj st = (st, false) := fixPbxproj_none st hc
      have h2 : ((fixInfoPlist st).1).pbx = none := by
        rw [(fixInfoPlist_frame st).2.1]; exact hc
      have hr : removeStage (fixInfoPlist st).1 = Except.error IOErr.ioError :=
        removeStage_none _ h2
      have : (mainRun st).1.pbx = none := by
        simp only [mainRun, hpe, if_true, h1, hr]
        exact h2
      rw [this] at hpx
      cases hpx
  | some c0 =>
      rw [(mainRun_frame st hpe).2.1]
      by_cases ha : applyRules c0 = c0
      · rw [fixPbxproj_nochange st c0 hc ha]
        cases hbb : st.pbxBackup with
        | none => exact ⟨c0, by simp [backupStep, hbb]⟩
        | some b => exact ⟨b, by simp [backupStep, hbb]⟩
      · rw [fixPbxproj_change st c0 hc ha]
        cases hbb : st.pbxBackup with
        | none => exact ⟨c0, by simp [backupStep, hbb]⟩
        | some b => exact ⟨b, by simp [backupStep, hbb]⟩

/-- Composition shape of a successful run. -/
theorem mainRun_eq_ok (st st3 : St) (b3 : Bool) (hpe : st.projectExists = true)
    (h3 : removeStage (fixInfoPlist (fixPbxproj st).1).1 = Except.ok (st3, b3)) :
    mainRun st
      = (st3, RunOutcome.ok (fixPbxproj st).2 ((fixInfoPlist (fixPbxproj st).1)).2 b3) := by
  simp only [mainRun, hpe, if_true, h3]

/-- Composition shape of a run that crashes in the copy-resources stage. -/
theorem mainRun_eq_crashed (st : St) (e : IOErr) (hpe : st.projectExists = true)
    (h3 : removeStage (fixInfoPlist (fixPbxproj st).1).1 = Except.error e) :
    mainRun st = ((fixInfoPlist (fixPbxproj st).1).1,
      RunOutcome.crashed (fixPbxproj st).2 ((fixInfoPlist (fixPbxproj st).1)).2) := by
  simp only [mainRun, hpe, if_true, h3]

/-! ### Claim C1 -/

/-- Claim C1, counterexample.  Running the full session twice on the same
initial contents is NOT idempotent in general: on `spliceKeyText` the first
run's `INFOPLIST_KEY_` removal splices a fresh `INFOPLIST_KEY_B = 2;`
assignment out of the surrounding fragments, so the second run again reports
a descriptor change and leaves different bytes than the first run did. -/
theorem c1_counterexample :
    (mainRun stSpliceKey).2 = RunOutcome.ok true false false
  ∧ (mainRun (mainRun stSpliceKey).1).2 = RunOutcome.ok true false false
  ∧ (mainRun (mainRun stSpliceKey).1).1.pbx ≠ (mainRun stSpliceKey).1.pbx := by
  refine ⟨by decide, by decide, by decide⟩

/-- Claim C1, amended.  A second session run is a no-op — identical file
state, every stage reporting no change — provided the descriptor the first
run leaves behind is a fixed point of the rule set and contains no
Copy-Bundle-Resources entry; the metadata stage needs no proviso, since
reconciliation is unconditionally idempotent.  (The proviso holds whenever
no removal splices a fresh match, e.g. for the specification's
already-correct-descriptor scenario, but `c1_counterexample` shows it can
fail.) -/
theorem c1_conditional_idempotence (st : St) (c : List Char)
    (hpe : st.projectExists = true)
    (hpx : (mainRun st).1.pbx = some c)
    (hfix : applyRules c = c)
    (hent : pyFindall entryPat c = [])
    (hnd : ∀ f, st.plistFile = some f → (f.items.map Prod.fst).Nodup) :
    mainRun (mainRun st).1 = ((mainRun st).1, RunOutcome.ok false false false) := by
  have hframe := mainRun_frame st hpe
  have hpe1 : (mainRun st).1.projectExists = true := hframe.1.trans hpe
  have hplist1 : ∀ g, (mainRun st).1.plistFile = some g →
      (reconcileLoop requiredKeys g.items).2 = false := by
    intro g hg
    rw [hframe.2.2.1] at hg
    have hA : ((fixPbxproj st).1).plistFile = st.plistFile := (fixPbxproj_frame st).2.1
    cases hf : st.plistFile with
    | none =>
        rw [fixInfoPlist_none (fixPbxproj st).1 (hA.trans hf), hA, hf] at hg
        cases hg
    | some f =>
        have hAf : ((fixPbxproj st).1).plistFile = some f := hA.trans hf
        cases hm : (reconcileLoop requiredKeys f.items).2 with
        | false =>
            rw [fixInfoPlist_nomod (fixPbxproj st).1 f hAf hm, hAf] at hg
            injection hg with hg
            rw [← hg]
            exact hm
        | true =>
            rw [fixInfoPlist_mod (fixPbxproj st).1 f hAf hm] at hg
            injection hg with hg
            rw [← hg]
            simp only [plistDump]
            have hndf : (f.items.map Prod.fst).Nodup := hnd f hf
            have hndr : (((reconcileLoop requiredKeys f.items).1).map Prod.fst).Nodup :=
              reconcileLoop_keys_nodup requiredKeys f.items hndf
            have hndR : (requiredKeys.map Prod.fst).Nodup := by decide
            have hx : ¬ ((reconcileLoop requiredKeys
                (sortByKey (reconcileLoop requiredKeys f.items).1)).2 = true) := by
              rw [reconcileLoop_flag_iff]
              rintro ⟨p, hp, hu⟩
              obtain ⟨w, hw, he⟩ :=
                reconcileLoop_lookup_mem requiredKeys f.items hndR p.1 p.2 hp
              simp [needsUpd, lookupD_sortByKey _ hndr p.1, hw, he] at hu
            exact Bool.eq_false_iff.mpr hx
  obtain ⟨b, hb1⟩ := mainRun_pbxBackup_isSome st c hpe hpx
  have hfp : fixPbxproj (mainRun st).1 = ((mainRun st).1, false) := by
    rw [fixPbxproj_nochange (mainRun st).1 c hpx hfix]
    have hbs : backupStep (some c) (mainRun st).1.pbxBackup = (mainRun st).1.pbxBackup := by
      rw [hb1]
      rfl
    rw [hbs]
  have hfi : fixInfoPlist (mainRun st).1 = ((mainRun st).1, false) := by
    cases hf1 : (mainRun st).1.plistFile with
    | none => exact fixInfoPlist_none _ hf1
    | some g => exact fixInfoPlist_nomod _ g hf1 (hplist1 g hf1)
  have hrs : removeStage (mainRun st).1 = Except.ok ((mainRun st).1, false) :=
    removeStage_nil _ c hpx hent
  have h3 : removeStage (fixInfoPlist (fixPbxproj (mainRun st).1).1).1
      = Except.ok ((mainRun st).1, false) := by
    rw [hfp, hfi]
    exact hrs
  have hres := mainRun_eq_ok (mainRun st).1 (mainRun st).1 false hpe1 h3
  simp only [hfp, hfi] at hres
  exact hres

/-- Witness for `c1_conditional_idempotence`: the specification's scenario
of an already-correct descriptor and complete metadata. -/
theorem c1_witness :
    (mainRun stGood).1.pbx = some goodDescriptor
  ∧ mainRun (mainRun stGood).1 = ((mainRun stGood).1, RunOutcome.ok false false false) := by
  refine ⟨by decide, c1_conditional_idempotence stGood goodDescriptor (by decide) (by decide)
    (by decide) (by decide) ?_⟩
  intro f hf
  simp only [show stGood.plistFile = some plistAllRequired from rfl,
    Option.some.injEq] at hf
  rw [← hf]
  decide

/-! ### Claim C2 -/

/-- Claim C2, counterexample.  `fix_project_file` of
`fix_infoplist_duplicate.py` copies to its `.backup2` location
UNCONDITIONALLY: after a second run the backup holds the post-first-run
bytes, not the pre-first-run bytes, so an existing backup IS overwritten by
a later call. -/
theorem c2_counterexample :
    (fixProjectFile (some dupFixText) none).2.1 = some dupFixText
  ∧ (fixProjectFile (some dupFixText) none).1 = some dupFixRemoved
  ∧ (fixProjectFile (fixProjectFile (some dupFixText) none).1
        (fixProjectFile (some dupFixText) none).2.1).2.1 = some dupFixRemoved
  ∧ dupFixRemoved ≠ dupFixText := by
  refine ⟨by decide, by decide, by decide, by decide⟩

/-- Claim C2, amended.  For the `.backup` location managed by
`auto_fix_xcode.py`'s `backup_file`, the invariant DOES hold: starting from
a backup-less state with an existing descriptor, any number `n ≥ 1` of
session runs leaves exactly the pre-first-run descriptor bytes in the
backup — later runs never overwrite it.  (`fix_project_file`'s `.backup2`
copy, by contrast, is rewritten on every call, see `c2_counterexample`.) -/
theorem c2_backup_once (st : St) (c : List Char) (hpe : st.projectExists = true)
    (hpx : st.pbx = some c) (hb : st.pbxBackup = none) :
    ∀ n, 1 ≤ n → (iterRuns n st).pbxBackup = some c := by
  intro n hn
  cases n with
  | zero => cases hn
  | succ m =>
      exact iterRuns_pbxBackup_some c m (mainRun st).1
        (mainRun_backup_created st c hpe hpx hb)

/-- Witness for `c2_backup_once`: two runs on the already-correct state. -/
theorem c2_witness :
    stGood.projectExists = true ∧ stGood.pbx = some goodDescriptor
  ∧ stGood.pbxBackup = none ∧ (1 : Nat) ≤ 2
  ∧ (iterRuns 2 stGood).pbxBackup = some goodDescriptor :=
  ⟨rfl, rfl, rfl, by decide,
    c2_backup_once stGood goodDescriptor rfl rfl rfl 2 (by decide)⟩

/-! ### Claim C3 -/

/-- Claim C3, counterexample.  The loop compares with Python `==`, under
which the integer `1` equals the boolean `True`: on a document whose
`LSRequiresIPhoneOS` is the integer `1` (all other required keys exact) the
loop reports no modification and leaves the integer in place, although that
value is not deep-equal with exact type to the required boolean — a boolean
requirement IS satisfied here by a value of another type, and the modified
flag stays false although a key differs under the spec's equality. -/
theorem c3_counterexample :
    (reconcileLoop requiredKeys docIntOne).2 = false
  ∧ lookupD (reconcileLoop requiredKeys docIntOne).1 "LSRequiresIPhoneOS"
      = some (PValue.int 1)
  ∧ deepEq (PValue.int 1) (PValue.bool true) = false
  ∧ lookupD requiredKeys "LSRequiresIPhoneOS" = some (PValue.bool true) := by
  refine ⟨by decide, by decide, by decide, by decide⟩

/-- Claim C3, amended.  With the comparison read as Python `==` (sequences
element-wise and order-sensitive, strings by value, but booleans equal to
numerically equal integers): after the update loop every required key maps
to a Python-equal value, keys outside the required set keep exactly their
prior value, and the modified flag is true iff some required key was missing
from the original document or Python-unequal there. -/
theorem c3_reconcile_pyeq (R : Doc) (d : Doc) (hnd : (R.map Prod.fst).Nodup) :
    (∀ k v, (k, v) ∈ R →
        ∃ w, lookupD (reconcileLoop R d).1 k = some w ∧ pyEq w v = true)
  ∧ (∀ k, k ∉ R.map Prod.fst → lookupD (reconcileLoop R d).1 k = lookupD d k)
  ∧ ((reconcileLoop R d).2 = true ↔ ∃ p ∈ R, needsUpd d p = true) :=
  ⟨fun k v hm => reconcileLoop_lookup_mem R d hnd k v hm,
   fun k hk => reconcileLoop_lookup_not_mem R d k hk,
   reconcileLoop_flag_iff R d⟩

/-- Witness for `c3_reconcile_pyeq`: the empty document gains
`CFBundleDisplayName`, a foreign key survives reconciliation untouched. -/
theorem c3_witness :
    (requiredKeys.map Prod.fst).Nodup
  ∧ (∃ w, lookupD (reconcileLoop requiredKeys []).1 "CFBundleDisplayName" = some w
        ∧ pyEq w (PValue.str "Beacon Attendance") = true)
  ∧ lookupD (reconcileLoop requiredKeys docOther).1 "Other" = lookupD docOther "Other"
  ∧ ((reconcileLoop requiredKeys []).2 = true
        ↔ ∃ p ∈ requiredKeys, needsUpd [] p = true) :=
  ⟨by decide,
   (c3_reconcile_pyeq requiredKeys [] (by decide)).1 "CFBundleDisplayName"
     (PValue.str "Beacon Attendance") (by decide),
   (c3_reconcile_pyeq requiredKeys docOther (by decide)).2.1 "Other" (by decide),
   (c3_reconcile_pyeq requiredKeys [] (by decide)).2.2⟩

/-! ### Claim C4 -/

/-- When none of the six rule patterns matches anywhere, the whole pipeline
is the identity. -/
theorem applyRules_eq_of_noMatch (c : List Char)
    (h1 : noMatch genPat c = true) (h2 : noMatch infoFilePat c = true)
    (h3 : noMatch infoKeyPat c = true) (h4 : noMatch entitlementsPat c = true)
    (h5 : noMatch bundleIdPat c = true) (h6 : noMatch devTeamPat c = true) :
    applyRules c = c := by
  unfold applyRules
  rw [pySub_eq_of_noMatch genPat genRepl c h1,
      pySub_eq_of_noMatch infoFilePat infoFileRepl c h2,
      pySub_eq_of_noMatch infoKeyPat [] c h3,
      pySub_eq_of_noMatch entitlementsPat entitlementsRepl c h4,
      pySub_eq_of_noMatch bundleIdPat bundleIdRepl c h5,
      pySub_eq_of_noMatch devTeamPat devTeamRepl c h6]

/-- Claim C4, counterexample.  On the already-correct descriptor, Fix 2
matches (one occurrence) and rewrites the text to itself; `fix_pbxproj`
compares the final text with the original and returns False — the changed
flag is decided by the text comparison, not by match occurrence. -/
theorem c4_counterexample :
    pyFindall infoFilePat goodDescriptor ≠ []
  ∧ (fixPbxproj stGood).2 = false
  ∧ (fixPbxproj stGood).1.pbx = some goodDescriptor := by
  refine ⟨by decide, by decide, by decide⟩

/-- Claim C4, amended.  A rule matching zero occurrences leaves the document
byte-identical and contributes no change; but the aggregate flag is
`content != original_content`, the comparison of final and initial text, so
a rule that does match while producing identical text also contributes
nothing (see `c4_counterexample`). -/
theorem c4_zero_match_no_change (st : St) (c : List Char) (h : st.pbx = some c)
    (h1 : noMatch genPat c = true) (h2 : noMatch infoFilePat c = true)
    (h3 : noMatch infoKeyPat c = true) (h4 : noMatch entitlementsPat c = true)
    (h5 : noMatch bundleIdPat c = true) (h6 : noMatch devTeamPat c = true) :
    applyRules c = c ∧ (fixPbxproj st).1.pbx = some c ∧ (fixPbxproj st).2 = false := by
  have hr : applyRules c = c := applyRules_eq_of_noMatch c h1 h2 h3 h4 h5 h6
  refine ⟨hr, ?_, ?_⟩
  · rw [fixPbxproj_nochange st c h hr]
    exact h
  · rw [fixPbxproj_nochange st c h hr]

/-- Witness for `c4_zero_match_no_change` at a one-character descriptor. -/
theorem c4_witness :
    noMatch genPat "N".data = true ∧ noMatch infoFilePat "N".data = true
  ∧ noMatch infoKeyPat "N".data = true ∧ noMatch entitlementsPat "N".data = true
  ∧ noMatch bundleIdPat "N".data = true ∧ noMatch devTeamPat "N".data = true
  ∧ applyRules "N".data = "N".data
  ∧ (fixPbxproj stNoEntry).1.pbx = some "N".data
  ∧ (fixPbxproj stNoEntry).2 = false := by
  have h := c4_zero_match_no_change stNoEntry ("N".data) rfl (by decide) (by decide)
    (by decide) (by decide) (by decide) (by decide)
  exact ⟨by decide, by decide, by decide, by decide, by decide, by decide,
    h.1, h.2.1, h.2.2⟩

/-! ### Claim C5 -/

/-- Claim C5.  The `GENERATE_INFOPLIST_FILE` rule is applied globally, not
first-match: in a document of shape `a ++ m1 ++ b ++ m2 ++ c` whose two
match occurrences are `m1` and `m2` (no match starting inside `a`, `b` or
`c`), `re.sub` rewrites BOTH occurrences and `re.findall` reports both. -/
theorem c5_global_rewrite (a b c m1 m2 : List Char)
    (ha : ∀ i, i < a.length →
        matchToks genPat ((a ++ (m1 ++ (b ++ (m2 ++ c)))).drop i) = none)
    (h1 : matchToks genPat (m1 ++ (b ++ (m2 ++ c))) = some m1.length)
    (h1p : m1 ≠ [])
    (hb : ∀ i, i < b.length → matchToks genPat ((b ++ (m2 ++ c)).drop i) = none)
    (h2 : matchToks genPat (m2 ++ c) = some m2.length)
    (h2p : m2 ≠ [])
    (hc : noMatch genPat c = true) :
    pySub genPat genRepl (a ++ (m1 ++ (b ++ (m2 ++ c))))
      = a ++ (genRepl ++ (b ++ (genRepl ++ c)))
  ∧ pyFindall genPat (a ++ (m1 ++ (b ++ (m2 ++ c)))) = [m1, m2] := by
  obtain ⟨d1, t1, rfl⟩ : ∃ d t, m1 = d :: t := by
    cases m1 with
    | nil => exact absurd rfl h1p
    | cons d t => exact ⟨d, t, rfl⟩
  obtain ⟨d2, t2, rfl⟩ : ∃ d t, m2 = d :: t := by
    cases m2 with
    | nil => exact absurd rfl h2p
    | cons d t => exact ⟨d, t, rfl⟩
  have h1' : matchToks genPat (d1 :: (t1 ++ (b ++ ((d2 :: t2) ++ c))))
      = some (t1.length + 1) := by simpa using h1
  have h2' : matchToks genPat (d2 :: (t2 ++ c)) = some (t2.length + 1) := by
    simpa using h2
  have e2 : subGoSkip genPat genRepl 0 ((d2 :: t2) ++ c)
      = genRepl ++ subGoSkip genPat genRepl 0 c := by
    rw [List.cons_append, subGoSkip_cons_match genPat genRepl d2 _ t2.length h2',
        List.drop_left]
  have e1 : subGoSkip genPat genRepl 0 ((d1 :: t1) ++ (b ++ ((d2 :: t2) ++ c)))
      = genRepl ++ subGoSkip genPat genRepl 0 (b ++ ((d2 :: t2) ++ c)) := by
    rw [List.cons_append, subGoSkip_cons_match genPat genRepl d1 _ t1.length h1',
        List.drop_left]
  have f2 : findGoSkip genPat 0 ((d2 :: t2) ++ c)
      = (d2 :: t2) :: findGoSkip genPat 0 c := by
    rw [List.cons_append, findGoSkip_cons_match genPat d2 _ t2.length h2',
        List.drop_left, List.take_succ_cons, List.take_left]
  have f1 : findGoSkip genPat 0 ((d1 :: t1) ++ (b ++ ((d2 :: t2) ++ c)))
      = (d1 :: t1) :: findGoSkip genPat 0 (b ++ ((d2 :: t2) ++ c)) := by
    rw [List.cons_append, findGoSkip_cons_match genPat d1 _ t1.length h1',
        List.drop_left, List.take_succ_cons, List.take_left]
  constructor
  · show subGoSkip genPat genRepl 0 _ = _
    rw [subGoSkip_append_of_noMatchPrefix genPat genRepl a _ ha, e1,
        subGoSkip_append_of_noMatchPrefix genPat genRepl b _ hb, e2,
        show subGoSkip genPat genRepl 0 c = c from pySub_eq_of_noMatch genPat genRepl c hc]
  · show findGoSkip genPat 0 _ = _
    rw [findGoSkip_append_of_noMatchPrefix genPat a _ ha, f1,
        findGoSkip_append_of_noMatchPrefix genPat b _ hb, f2,
        show findGoSkip genPat 0 c = [] from pyFindall_eq_nil_of_noMatch genPat c hc]

/-- Witness for `c5_global_rewrite`: the specification's scenario — a
descriptor containing `GENERATE_INFOPLIST_FILE = YES;` twice has both
occurrences rewritten to `NO` and the stage reports a change. -/
theorem c5_witness :
    pySub genPat genRepl docTwoYes
      = twoYesPrefix ++ (genRepl ++ (twoYesMid ++ (genRepl ++ twoYesSuffix)))
  ∧ pyFindall genPat docTwoYes = [yesLine, yesLine]
  ∧ (fixPbxproj stTwoYes).2 = true
  ∧ (fixPbxproj stTwoYes).1.pbx
      = some ("X;\nGENERATE_INFOPLIST_FILE = NO;\nB;\nGENERATE_INFOPLIST_FILE = NO;\n".data) := by
  have h := c5_global_rewrite twoYesPrefix twoYesMid twoYesSuffix yesLine yesLine
    (by decide) (by decide) (by decide) (by decide) (by decide) (by decide) (by decide)
  exact ⟨h.1, h.2, by decide, by decide⟩

/-! ### Claim C6 -/

/-- Claim C6, counterexample.  Deleting a matched entry can SPLICE a new
matching entry out of the surrounding text: on `spliceEntryText` the stage
finds exactly one match and removes it, yet the written descriptor again
contains a matching entry — the result does not have zero occurrences. -/
theorem c6_counterexample :
    (pyFindall entryPat spliceEntryText).length = 1
  ∧ removeStage stSpliceEntry
      = Except.ok ({ stSpliceEntry with pbx := some entryText }, true)
  ∧ pyFindall entryPat entryText ≠ [] := by
  refine ⟨by decide, by rfl, by decide⟩

/-- Claim C6, amended.  The removed-count always equals the number of found
occurrences; with zero matches the document is returned byte-identical, not
written, and reported as the correct state; and on documents whose matches
do not splice (here concrete documents with 1 and 3 entries) the result
contains zero occurrences — but splicing can leave occurrences behind
(`c6_counterexample`). -/
theorem c6_removal :
    (∀ (st : St) (c : List Char), st.pbx = some c → pyFindall entryPat c = [] →
        removeStage st = Except.ok (st, false))
  ∧ ((pyFindall entryPat docOneEntry).length = 1
      ∧ pyFindall entryPat (removeMatches docOneEntry (pyFindall entryPat docOneEntry)) = [])
  ∧ ((pyFindall entryPat docThreeEntries).length = 3
      ∧ pyFindall entryPat
          (removeMatches docThreeEntries (pyFindall entryPat docThreeEntries)) = []) := by
  refine ⟨fun st c h hf => removeStage_nil st c h hf, ⟨by decide, by decide⟩,
    ⟨by decide, by decide⟩⟩

/-- Witness for `c6_removal`: the zero-entry case on a minimal state. -/
theorem c6_witness :
    stNoEntry.pbx = some "N".data ∧ pyFindall entryPat "N".data = []
  ∧ removeStage stNoEntry = Except.ok (stNoEntry, false) :=
  ⟨rfl, by decide, c6_removal.1 stNoEntry ("N".data) rfl (by decide)⟩

/-! ### Claim C7 -/

/-- Claim C7, counterexample.  With the project directory present but the
descriptor file absent, the first two stages run (reporting no change), and
then the copy-resources stage's unguarded `open` raises an uncaught error:
the failure is NOT caught at the stage boundary and the session aborts. -/
theorem c7_counterexample :
    stMissingDescriptor.projectExists = true
  ∧ mainRun stMissingDescriptor = (stMissingDescriptor, RunOutcome.crashed false false) := by
  refine ⟨rfl, by decide⟩

/-- Claim C7, amended.  A missing project path is fatal before any stage
runs; the descriptor and metadata stages treat their own missing files as
"no change"; but the copy-resources stage reads the descriptor without an
existence check or handler, so when the descriptor is absent the session
crashes there, after the first two stages, and only when the descriptor is
present does every stage complete. -/
theorem c7_error_paths (st : St) :
    (st.projectExists = false → mainRun st = (st, RunOutcome.fatal))
  ∧ (st.projectExists = true → st.pbx = none →
        ∃ b2, mainRun st = ((fixInfoPlist st).1, RunOutcome.crashed false b2))
  ∧ (st.projectExists = true → ∀ c, st.pbx = some c →
        ∃ st3 b1 b2 b3, mainRun st = (st3, RunOutcome.ok b1 b2 b3)) := by
  refine ⟨fun h => mainRun_fatal st h, fun hpe hpx => ?_, fun hpe c hpx => ?_⟩
  · have hfp : fixPbxproj st = (st, false) := fixPbxproj_none st hpx
    have hpx2 : ((fixInfoPlist st).1).pbx = none := by
      rw [(fixInfoPlist_frame st).2.1]
      exact hpx
    have hr : removeStage (fixInfoPlist st).1 = Except.error IOErr.ioError :=
      removeStage_none _ hpx2
    refine ⟨(fixInfoPlist st).2, ?_⟩
    have hres := mainRun_eq_crashed st IOErr.ioError hpe (by rw [hfp]; exact hr)
    simp only [hfp] at hres
    exact hres
  · have hpx1 : ((fixInfoPlist (fixPbxproj st).1).1).pbx = (fixPbxproj st).1.pbx :=
      (fixInfoPlist_frame _).2.1
    have hsome : ∃ c2, (fixPbxproj st).1.pbx = some c2 := by
      by_cases ha : applyRules c = c
      · rw [fixPbxproj_nochange st c hpx ha]
        exact ⟨c, hpx⟩
      · rw [fixPbxproj_change st c hpx ha]
        exact ⟨applyRules c, rfl⟩
    obtain ⟨c2, hc2⟩ := hsome
    obtain ⟨p, hp⟩ := removeStage_isOk (fixInfoPlist (fixPbxproj st).1).1 c2 (hpx1.trans hc2)
    obtain ⟨st3, b3⟩ := p
    exact ⟨st3, (fixPbxproj st).2, (fixInfoPlist (fixPbxproj st).1).2, b3,
      mainRun_eq_ok st st3 b3 hpe hp⟩

/-- Witness for `c7_error_paths`: the fatal path and a completed run. -/
theorem c7_witness :
    mainRun stMissingProject = (stMissingProject, RunOutcome.fatal)
  ∧ (∃ st3 b1 b2 b3, mainRun stNoEntry = (st3, RunOutcome.ok b1 b2 b3)) :=
  ⟨(c7_error_paths stMissingProject).1 rfl,
   (c7_error_paths stNoEntry).2.2 rfl ("N".data) rfl⟩

/-! ### Claim C8 -/

/-- Claim C8, counterexample.  On a missing source file `backup_file`
returns NORMALLY with no backup made — it raises no `IOError` — whereas the
specification's `ensureBackup` contract fails with `IOError` there. -/
theorem c8_counterexample :
    backupFile none none = Except.ok none
  ∧ ensureBackupSpec none none = Except.error IOErr.ioError :=
  ⟨rfl, rfl⟩

/-- Claim C8, amended.  `backup_file` can never raise: it invokes `cp`
through `subprocess.run` without `check=True`, discarding the exit status,
so for every state it returns successfully with the first-write-wins backup
transformer's result; when the source file is missing, no backup is created
(the failure is silent) and the session trivially continues. -/
theorem c8_backup_never_raises (src bak : Option (List Char)) :
    backupFile src bak = Except.ok (backupStep src bak)
  ∧ (src = none → backupStep src bak = bak) := by
  constructor
  · cases bak with
    | some b => rfl
    | none =>
        cases src with
        | some cc => rfl
        | none => rfl
  · intro h
    subst h
    cases bak with
    | some b => rfl
    | none => rfl

/-- Witness for `c8_backup_never_raises` at a missing source. -/
theorem c8_witness :
    backupFile none none = Except.ok (backupStep none none)
  ∧ backupStep none none = none :=
  ⟨(c8_backup_never_raises none none).1, (c8_backup_never_raises none none).2 rfl⟩

/-! ### Claim C9 -/

/-- Claim C9, counterexample.  A binary plist file with keys in
non-alphabetical order is, once modified, written back as XML with the keys
sorted: the encoding choice and the original key order are NOT preserved by
the `plistlib.dump` defaults. -/
theorem c9_counterexample :
    binaryPlistFile.fmt = PFmt.binary
  ∧ binaryDoc.map Prod.fst = ["ZKey", "AKey"]
  ∧ (fixInfoPlist stBinaryPlist).2 = true
  ∧ (fixInfoPlist stBinaryPlist).1.plistFile.map PFile.fmt = some PFmt.xml
  ∧ (fixInfoPlist stBinaryPlist).1.plistFile.map (fun f => f.items.map Prod.fst)
      = some ["AKey", "CFBundleDisplayName", "CFBundleIdentifier", "LSRequiresIPhoneOS",
              "NSBluetoothAlwaysUsageDescription",
              "NSLocationAlwaysAndWhenInUseUsageDescription",
              "NSLocationAlwaysUsageDescription", "NSLocationWhenInUseUsageDescription",
              "UIBackgroundModes", "ZKey"] := by
  refine ⟨rfl, by decide, by decide, by decide, by rfl⟩

/-- Claim C9, amended.  When the metadata document is modified, the written
file is always XML with the reconciled document key-sorted
(`plistlib.dump`'s defaults); the VALUES of keys outside the required set do
round-trip unchanged, but their order and the binary/XML encoding choice do
not (see `c9_counterexample`). -/
theorem c9_dump_reencodes (st : St) (f : PFile) (hf : st.plistFile = some f)
    (hnd : (f.items.map Prod.fst).Nodup)
    (hm : (reconcileLoop requiredKeys f.items).2 = true) :
    (fixInfoPlist st).1.plistFile
      = some ⟨PFmt.xml, sortByKey (reconcileLoop requiredKeys f.items).1⟩
  ∧ ∀ k, k ∉ requiredKeys.map Prod.fst →
      lookupD (sortByKey (reconcileLoop requiredKeys f.items).1) k = lookupD f.items k := by
  constructor
  · rw [fixInfoPlist_mod st f hf hm]
    rfl
  · intro k hk
    rw [lookupD_sortByKey _ (reconcileLoop_keys_nodup requiredKeys f.items hnd) k]
    exact reconcileLoop_lookup_not_mem requiredKeys f.items k hk

/-- Witness for `c9_dump_reencodes` on the binary two-key file. -/
theorem c9_witness :
    stBinaryPlist.plistFile = some binaryPlistFile
  ∧ (binaryDoc.map Prod.fst).Nodup
  ∧ (reconcileLoop requiredKeys binaryDoc).2 = true
  ∧ (fixInfoPlist stBinaryPlist).1.plistFile
      = some ⟨PFmt.xml, sortByKey (reconcileLoop requiredKeys binaryDoc).1⟩
  ∧ lookupD (sortByKey (reconcileLoop requiredKeys binaryDoc).1) "ZKey"
      = lookupD binaryDoc "ZKey" := by
  have h := c9_dump_reencodes stBinaryPlist binaryPlistFile rfl (by decide) (by decide)
  exact ⟨rfl, by decide, by decide, h.1, h.2 "ZKey" (by decide)⟩

/-! ### Claim C10 -/

/-- Claim C10.  `fix_pbxproj` requests the backup unconditionally, before
any rule is evaluated: even when no rule matches, a backup of the (still
unmodified) descriptor is created when none exists, the function returns
False and the descriptor is never written — whereas `fix_info_plist` with
nothing to change takes no backup at all and leaves its file untouched. -/
theorem c10_unconditional_backup (st st2 : St) (c : List Char) (f : PFile)
    (hc : st.pbx = some c) (hb : st.pbxBackup = none)
    (h1 : noMatch genPat c = true) (h2 : noMatch infoFilePat c = true)
    (h3 : noMatch infoKeyPat c = true) (h4 : noMatch entitlementsPat c = true)
    (h5 : noMatch bundleIdPat c = true) (h6 : noMatch devTeamPat c = true)
    (hf : st2.plistFile = some f)
    (hm : (reconcileLoop requiredKeys f.items).2 = false) :
    (fixPbxproj st).1.pbxBackup = some c
  ∧ (fixPbxproj st).2 = false
  ∧ (fixPbxproj st).1.pbx = some c
  ∧ (fixInfoPlist st2).1.plistBackup = st2.plistBackup
  ∧ (fixInfoPlist st2).2 = false
  ∧ (fixInfoPlist st2).1.plistFile = some f := by
  have hr : applyRules c = c := applyRules_eq_of_noMatch c h1 h2 h3 h4 h5 h6
  have hfi := fixInfoPlist_nomod st2 f hf hm
  refine ⟨?_, ?_, ?_, ?_, ?_, ?_⟩
  · rw [fixPbxproj_nochange st c hc hr]
    show backupStep (some c) st.pbxBackup = some c
    rw [hb]
    rfl
  · rw [fixPbxproj_nochange st c hc hr]
  · rw [fixPbxproj_nochange st c hc hr]
    exact hc
  · rw [hfi]
  · rw [hfi]
  · rw [hfi]
    exact hf

/-- Witness for `c10_unconditional_backup` on concrete states. -/
theorem c10_witness :
    (fixPbxproj stNoEntry).1.pbxBackup = some "N".data
  ∧ (fixPbxproj stNoEntry).2 = false
  ∧ (fixPbxproj stNoEntry).1.pbx = some "N".data
  ∧ (fixInfoPlist stGood).1.plistBackup = none
  ∧ (fixInfoPlist stGood).2 = false
  ∧ (fixInfoPlist stGood).1.plistFile = some plistAllRequired := by
  have h := c10_unconditional_backup stNoEntry stGood ("N".data) plistAllRequired rfl rfl
    (by decide) (by decide) (by decide) (by decide) (by decide) (by decide) rfl (by decide)
  exact ⟨h.1, h.2.1, h.2.2.1, h.2.2.2.1, h.2.2.2.2.1, h.2.2.2.2.2⟩
